import Mathlib

/-!
Verification of the motioncam-fs VFS core against its specification.

The development shallowly embeds the relevant functions of
`src/src/VirtualFileSystemImpl_MCRAW.cpp` and
`src/deps/bw64/include/bw64/{parser.hpp,reader.hpp,utils.hpp}`:

* machine integers (`int`, `int64_t`, `size_t`) are modelled as `Int`/`Nat`
  (the quantities involved stay far from the 32/64-bit overflow bounds);
* the C++ `float`/`double` arithmetic of `syncAudio`, `calculateFrameRate`
  and `getFrameNumberFromTimestamp` is modelled exactly over `ℚ`
  (the claims and concrete inputs below use values on which binary floating
  point and exact rational arithmetic agree);
* `std::round` (round half away from zero) is `cppRound`; the C++
  float-to-integer conversion (truncation toward zero) is `ratTrunc`;
  C++ signed integer division (truncation toward zero) is `Int.tdiv`;
* fallible code (`throw std::runtime_error`) returns `Except String _`;
  external collaborators (the raw decoder, the DNG encoder, the audio
  writer) enter as explicit parameters, as in spec section 6.
-/

/-- Model of C++ `std::round` on exact rationals: round half away from zero. -/
def cppRound (q : ℚ) : Int :=
  if q < 0 then -(Int.floor (-q + 1/2)) else Int.floor (q + 1/2)

/-- Model of the C++ float-to-signed-integer conversion: truncation toward zero. -/
def ratTrunc (q : ℚ) : Int :=
  if q < 0 then -(Int.floor (-q)) else Int.floor q

/-- Round to the nearest integer, ties to even (the IEEE-754 default
rounding direction). -/
def roundEven (q : ℚ) : Int :=
  if q - Int.floor q < 1/2 then Int.floor q
  else if 1/2 < q - Int.floor q then Int.floor q + 1
  else if Int.floor q % 2 = 0 then Int.floor q else Int.floor q + 1

/-- Round an exact rational to the nearest IEEE-754 binary32 (C++ `float`)
value: 24-bit significand, round to nearest, ties to even.  The exponent is
left unbounded (no overflow or subnormal handling), which coincides with
binary32 on the whole range these models traverse — int64 nanosecond
timestamps and millisecond drifts sit far inside binary32's normal range. -/
def fl32 (q : ℚ) : ℚ :=
  if q = 0 then 0
  else
    let s : ℚ := if q < 0 then -1 else 1
    let a : ℚ := |q|
    let e : ℤ := Int.log 2 a
    let scale : ℚ := (2:ℚ) ^ (e - 23)
    s * ((roundEven (a / scale) : ℚ) * scale)

/-- An audio chunk, `std::pair<Timestamp, std::vector<int16_t>>`:
`first` is the nanosecond timestamp of the first sample, `second` the
channel-interleaved samples (sample values modelled as `Int`). -/
structure AudioChunk where
  first : Int
  second : List Int
deriving DecidableEq, Repr

/-- The trim loop of `syncAudio` (VirtualFileSystemImpl_MCRAW.cpp:129-148):
walk the chunks from the front while fewer than `samplesToRemove` samples
have been removed; a chunk wholly covered by the remaining trim is erased,
otherwise a prefix of its samples is erased and its timestamp advanced by
`remainingSamplesToRemove * 1000 / sampleRate` (C++ integer division). -/
def trimAudioChunks (sampleRate : Int) : List AudioChunk → Int → List AudioChunk
  | [], _ => []
  | c :: rest, remaining =>
    if remaining ≤ 0 then c :: rest
    else if (c.second.length : Int) ≤ remaining then
      trimAudioChunks sampleRate rest (remaining - c.second.length)
    else
      { first := c.first + Int.tdiv (remaining * 1000) sampleRate,
        second := c.second.drop remaining.toNat } :: rest

/-- `syncAudio` (VirtualFileSystemImpl_MCRAW.cpp:119-169).  The drift is
`(audioChunks[0].first - videoTimestamp) * 1e-6f`, a millisecond value
(the drift product is modelled exactly over `ℚ`; every concrete input used
below makes it float-exact).  Positive drift trims leading samples
(integer arithmetic only); otherwise a silence chunk is prepended and every
pre-existing chunk runs `it->first += silenceDuration`: the `int64_t`
timestamp is converted to `float` (`fl32`), the float addition rounds the
exact sum to `float` again (outer `fl32`), and the result is converted back
to `int64_t` by truncation (`ratTrunc`).  The source
always calls this with a non-empty chunk list; the empty case is unreachable
and modelled as the identity. -/
def syncAudio (videoTimestamp : Int) (audioChunks : List AudioChunk)
    (sampleRate numChannels : Int) : List AudioChunk :=
  match audioChunks with
  | [] => []
  | a :: _ =>
    let audioVideoDriftMs : ℚ := ((a.first - videoTimestamp : Int) : ℚ) * (1/1000000)
    if 0 < audioVideoDriftMs then
      let audioFramesToRemove : Int :=
        cppRound (audioVideoDriftMs * (sampleRate : ℚ) / 1000)
      let samplesToRemove : Int := audioFramesToRemove * numChannels
      trimAudioChunks sampleRate audioChunks samplesToRemove
    else
      let silenceDuration : ℚ := -audioVideoDriftMs
      let silenceFrames : Int := cppRound (silenceDuration * (sampleRate : ℚ) / 1000)
      let silenceSamples : Int := silenceFrames * numChannels
      let silenceData : List Int := List.replicate silenceSamples.toNat 0
      { first := videoTimestamp, second := silenceData } ::
        audioChunks.map (fun c =>
          { c with first := ratTrunc (fl32 (fl32 ((c.first : Int) : ℚ) + silenceDuration)) })

/-- Concatenation of the samples of a chunk list, in order. -/
def samplesConcat : List AudioChunk → List Int
  | [] => []
  | c :: rest => c.second ++ samplesConcat rest

/-- The head trim prescribed by the claim for positive drift:
`round(drift_ms * sample_rate / 1000) * channels` samples. -/
def samplesToRemoveSpec (videoTimestamp : Int) (a : AudioChunk)
    (sampleRate numChannels : Int) : Int :=
  cppRound (((a.first - videoTimestamp : Int) : ℚ) / 1000000 * (sampleRate : ℚ) / 1000)
    * numChannels

/-- Loop of `calculateFrameRate` (VirtualFileSystemImpl_MCRAW.cpp:61-70):
running average `avg + (d - avg) / (validFrames + 1)` over the strictly
positive successive durations, carrying the previous timestamp. -/
def calcLoop : List Int → Int → ℚ → Nat → ℚ × Nat
  | [], _, avgDuration, validFrames => (avgDuration, validFrames)
  | t :: rest, prev, avgDuration, validFrames =>
    let duration : ℚ := ((t - prev : Int) : ℚ)
    if 0 < duration then
      calcLoop rest t (avgDuration + (duration - avgDuration) / (validFrames + 1))
        (validFrames + 1)
    else
      calcLoop rest t avgDuration validFrames

/-- `calculateFrameRate` (VirtualFileSystemImpl_MCRAW.cpp:51-77): 0 for fewer
than two frames or no strictly positive duration, otherwise `1e9 / avg`. -/
def calculateFrameRate (frames : List Int) : ℚ :=
  if frames.length < 2 then 0
  else
    match frames with
    | [] => 0
    | t0 :: rest =>
      let r := calcLoop rest t0 0 0
      if r.2 = 0 then 0 else 1000000000 / r.1

/-- The strictly positive successive durations of a timestamp list, as the
claim describes them (`d_i = t_i - t_{i-1}` kept when `d_i > 0`). -/
def posDurationsAux : List Int → Int → List ℚ
  | [], _ => []
  | t :: rest, prev =>
    let d : ℚ := ((t - prev : Int) : ℚ)
    if 0 < d then d :: posDurationsAux rest t else posDurationsAux rest t

/-- Strictly positive successive durations of a frame list. -/
def posDurations : List Int → List ℚ
  | [] => []
  | t0 :: rest => posDurationsAux rest t0

/-- `getFrameNumberFromTimestamp` (VirtualFileSystemImpl_MCRAW.cpp:79-94):
-1 for a non-positive frame rate or negative time difference, otherwise
`round(timeDifference / (1e9 / frameRate))`. -/
def getFrameNumberFromTimestamp (timestamp referenceTimestamp : Int)
    (frameRate : ℚ) : Int :=
  if frameRate ≤ 0 then -1
  else
    let timeDifference := timestamp - referenceTimestamp
    if timeDifference < 0 then -1
    else
      let nanosecondsPerFrame : ℚ := 1000000000 / frameRate
      cppRound ((timeDifference : ℚ) / nanosecondsPerFrame)

/-- Decimal representation of `n`, zero-padded on the left to `width`
characters (`std::setfill('0') << std::setw(width)`). -/
def zeroPad (width : Nat) (n : Int) : String :=
  let s := toString n
  if s.length < width then String.mk (List.replicate (width - s.length) '0') ++ s else s

/-- `constructFrameFilename` (VirtualFileSystemImpl_MCRAW.cpp:96-117). -/
def constructFrameFilename (baseName : String) (frameNumber : Int)
    (padding : Nat) (fileExt : String) : String :=
  baseName ++ zeroPad padding frameNumber ++
    (match fileExt.data with
     | [] => ""
     | c :: _ => if c = '.' then fileExt else "." ++ fileExt)

/-- Entry kinds (`EntryType` of the VFS interface). -/
inductive EntryType where
  | FILE_ENTRY
  | DIRECTORY_ENTRY
deriving DecidableEq, Repr

/-- A directory entry: kind, byte size, name, and the source-frame timestamp
for per-frame image entries (`userData`). -/
structure Entry where
  type : EntryType
  size : Nat
  name : String
  userData : Option Int
deriving DecidableEq, Repr

/-- The image entry the synthesis loop emits for cursor value `p.1` filled
from source frame `p.2` (VirtualFileSystemImpl_MCRAW.cpp:277-285). -/
def mkFrameEntry (typicalDngSize : Nat) (p : Int × Int) : Entry :=
  { type := EntryType.FILE_ENTRY
    size := typicalDngSize
    name := constructFrameFilename "frame-" p.1 6 "dng"
    userData := some p.2 }

/-- The frame-duplication loop of `init` (VirtualFileSystemImpl_MCRAW.cpp:272-289)
at the level of `(emitted cursor value, source frame)` pairs: for each source
frame, while `lastPts < pts` emit `(lastPts, frame)` and increment. -/
def gapFillPairs (t0 : Int) (fps : ℚ) : List Int → Int → List (Int × Int)
  | [], _ => []
  | t :: rest, lastPts =>
    let pts := getFrameNumberFromTimestamp t t0 fps
    (List.range (pts - lastPts).toNat).map (fun (k : Nat) => (lastPts + (k : Int), t))
      ++ gapFillPairs t0 fps rest (max lastPts pts)

/-- The `(cursor value, source frame)` pairs `init` emits for a frame list:
the loop runs over all frames with `frames[0]` as the reference and the
cursor starting at 0. -/
def imagePairs (frames : List Int) (fps : ℚ) : List (Int × Int) :=
  match frames with
  | [] => []
  | t0 :: _ => gapFillPairs t0 fps frames 0

/-- The image entries `init` synthesizes for a (sorted) frame list. -/
def imageEntries (frames : List Int) (fps : ℚ) (typicalDngSize : Nat) : List Entry :=
  (imagePairs frames fps).map (mkFrameEntry typicalDngSize)

/-- The presentation index the claim prescribes: `round((t - t0) * fps / 1e9)`. -/
def specPts (t0 : Int) (fps : ℚ) (t : Int) : Int :=
  cppRound (((t - t0 : Int) : ℚ) * fps / 1000000000)

/-- The enumeration exactly as the claim words it: cursor `next_pts` starting
at 0; for each source frame `t` with `pts = round((t - t0) * fps / 1e9)`,
while `next_pts < pts` emit `frame-{next_pts:06d}.dng` of the typical size
with `user_data = t`, incrementing `next_pts`. -/
def specGapFill (t0 : Int) (fps : ℚ) (typicalImageSize : Nat) :
    List Int → Int → List Entry
  | [], _ => []
  | t :: rest, nextPts =>
    let pts := specPts t0 fps t
    ((List.range (pts - nextPts).toNat).map (fun (k : Nat) =>
      { type := EntryType.FILE_ENTRY
        size := typicalImageSize
        name := "frame-" ++ zeroPad 6 (nextPts + (k : Int)) ++ ".dng"
        userData := some t : Entry }))
      ++ specGapFill t0 fps typicalImageSize rest (max nextPts pts)

/-- Claim-side image-entry enumeration over a frame list. -/
def specImageEntries (frames : List Int) (fps : ℚ) (typicalImageSize : Nat) :
    List Entry :=
  match frames with
  | [] => []
  | t0 :: _ => specGapFill t0 fps typicalImageSize frames 0

/-- Insertion step of the timestamp sort. -/
def insertTimestamp (x : Int) : List Int → List Int
  | [] => [x]
  | y :: ys => if x ≤ y then x :: y :: ys else y :: insertTimestamp x ys

/-- `std::sort` on the decoder's frame timestamps, modelled as insertion sort. -/
def sortTimestamps (l : List Int) : List Int :=
  l.foldr insertTimestamp []

/-- Byte content of the embedded Windows `desktop.ini` template
(VirtualFileSystemImpl_MCRAW.cpp:28-42). -/
def DESKTOP_INI : String :=
  "[.ShellClassInfo]\nConfirmFileOp=0\n\n[ViewState]\nMode=4\nVid=\x7b137E7700-3573-11CF-AE69-08002B2E1262\x7d\nFolderType=Generic\n\n[\x7b5984FFE0-28D4-11CF-AE66-08002B2E1262\x7d]\nMode=4\nLogicalViewMode=1\nIconSize=16\n\n[LocalizedFileNames]\n"

/-- Mutable VFS state: the synthesized directory, the computed frame rate and
the probed typical DNG size (`mFiles`, `mFps`, `mTypicalDngSize`).  A freshly
constructed VFS has `⟨[], 0, 0⟩` before `init` runs. -/
structure VfsState where
  files : List Entry
  fps : ℚ
  typicalDngSize : Nat
deriving DecidableEq, Repr

/-- `VirtualFileSystemImpl_MCRAW::init` (VirtualFileSystemImpl_MCRAW.cpp:192-290)
as a state transition.  External collaborators are parameters: `probeDngSize`
is the byte length of the probe encode of the first frame, `audioFileBytes`
the length of `mAudioFile` after the audio writer ran (0 when the capture has
no audio).  The decoder's frame list is sorted, and an empty list returns
early, before the state is cleared. -/
def initVfs (s : VfsState) (framesIn : List Int) (probeDngSize : Nat)
    (audioFileBytes : Nat) (isWin : Bool) : VfsState :=
  let frames := sortTimestamps framesIn
  match frames with
  | [] => s
  | t0 :: _ =>
    let fps := calculateFrameRate frames
    let hidden : List Entry :=
      if isWin then
        [{ type := EntryType.FILE_ENTRY, size := DESKTOP_INI.utf8ByteSize,
           name := "desktop.ini", userData := none }]
      else []
    let audio : List Entry :=
      if audioFileBytes ≠ 0 then
        [{ type := EntryType.FILE_ENTRY, size := audioFileBytes,
           name := "audio.wav", userData := none }]
      else []
    { files := hidden ++ audio ++ (gapFillPairs t0 fps frames 0).map (mkFrameEntry probeDngSize)
      fps := fps
      typicalDngSize := probeDngSize }

/-- Opaque payload of a decoded raw frame (frame bytes plus parsed
per-frame and container metadata, which the pipeline only passes through
to the external DNG encoder). -/
def RawFrame : Type := List Nat

/-- Stage 1 of `generateFrame` (VirtualFileSystemImpl_MCRAW.cpp:312-342), run
on the I/O pool: locate the entry's timestamp in the decoder's frame list
(`std::find`; missing frame throws), then load and parse the frame.  The
external decoder's load/parse step is the `loadFrame` parameter; on success
stage 1 yields the frame's index and payload. -/
def stage1Decode (allFrames : List Int) (timestamp : Int)
    (loadFrame : Except String RawFrame) : Except String (Nat × RawFrame) :=
  match allFrames.findIdx? (fun t => t == timestamp) with
  | none => Except.error "Failed to find frame"
  | some frameIndex =>
    match loadFrame with
    | Except.error e => Except.error e
    | Except.ok data => Except.ok (frameIndex, data)

/-- `generateFrame` (VirtualFileSystemImpl_MCRAW.cpp:306-386).  Returns the
pair (synchronous return value, arguments eventually passed to the `result`
callback).  The external DNG encoder is the `generateDng` parameter: it may
fail (`Except.error`, a thrown `std::runtime_error`), return no buffer
(`Except.ok none`, a null pointer) or produce the encoded bytes.  Stage-2
catches every `std::runtime_error` and always invokes
`result(readBytes, errorCode)` with `readBytes = 0, errorCode = -1` unless a
non-empty copy out of the encoded buffer happened. -/
def generateFrame (allFrames : List Int) (timestamp : Int)
    (loadFrame : Except String RawFrame)
    (generateDng : Nat → RawFrame → Except String (Option (List Nat)))
    (pos len : Nat) : Nat × (Nat × Int) :=
  let callbackArgs : Nat × Int :=
    match stage1Decode allFrames timestamp loadFrame with
    | Except.error _ => (0, -1)
    | Except.ok (frameIndex, frameData) =>
      match generateDng frameIndex frameData with
      | Except.error _ => (0, -1)
      | Except.ok none => (0, -1)
      | Except.ok (some dngData) =>
        if pos < dngData.length then (min len (dngData.length - pos), 0)
        else (0, -1)
  (0, callbackArgs)

/-- `fourCC` (bw64/utils.hpp): pack four ASCII bytes little-endian. -/
def fourCC (c0 c1 c2 c3 : Nat) : Nat :=
  c0 + 256 * c1 + 65536 * c2 + 16777216 * c3

/-- The four-character code of the `fmt ` chunk. -/
def fmtChunkId : Nat := fourCC 102 109 116 32

/-- Read a little-endian `uint16_t` from the stream
(`utils::readValue`; a short stream throws). -/
def readU16 : List Nat → Except String (Nat × List Nat)
  | b0 :: b1 :: rest => Except.ok (b0 + 256 * b1, rest)
  | _ => Except.error "file ended while reading value"

/-- Read a little-endian `uint32_t` from the stream. -/
def readU32 : List Nat → Except String (Nat × List Nat)
  | b0 :: b1 :: b2 :: b3 :: rest =>
    Except.ok (b0 + 256 * b1 + 65536 * b2 + 16777216 * b3, rest)
  | _ => Except.error "file ended while reading value"

/-- Read `n` raw bytes from the stream. -/
def readBytes (n : Nat) (s : List Nat) : Except String (List Nat × List Nat) :=
  if n ≤ s.length then Except.ok (s.take n, s.drop n)
  else Except.error "file ended while reading value"

/-- `ExtraData` of a `WAVE_FORMAT_EXTENSIBLE` fmt chunk (bw64/parser.hpp:13-25). -/
structure ExtraData where
  validBitsPerSample : Nat
  dwChannelMask : Nat
  subFormat : Nat
  subFormatString : List Nat
deriving DecidableEq, Repr

/-- `parseExtraData` (bw64/parser.hpp:13-25): `uint16` valid bits, `uint32`
channel mask, `uint16` subformat, 14 raw bytes. -/
def parseExtraData (s : List Nat) : Except String (ExtraData × List Nat) :=
  match readU16 s with
  | Except.error e => Except.error e
  | Except.ok (validBitsPerSample, s) =>
  match readU32 s with
  | Except.error e => Except.error e
  | Except.ok (dwChannelMask, s) =>
  match readU16 s with
  | Except.error e => Except.error e
  | Except.ok (subFormat, s) =>
  match readBytes 14 s with
  | Except.error e => Except.error e
  | Except.ok (subFormatString, s) =>
    Except.ok (⟨validBitsPerSample, dwChannelMask, subFormat, subFormatString⟩, s)

/-- Modelled from the spec: `FormatInfoChunk` lives in `bw64/chunks.hpp`,
which is not among the repository's source files; spec section 3 (FormatInfo)
gives its contents: channel count, sample rate, bits per sample, optional
extensible extra data, with `block_alignment = channels * bits / 8` and
`bytes_per_second = sample_rate * block_alignment`. -/
structure FormatInfoChunk where
  channelCount : Nat
  sampleRate : Nat
  bitsPerSample : Nat
  extraData : Option ExtraData
deriving DecidableEq, Repr

/-- Modelled from the spec: derived block alignment, `channels * bits / 8`. -/
def FormatInfoChunk.blockAlignment (c : FormatInfoChunk) : Nat :=
  c.channelCount * c.bitsPerSample / 8

/-- Modelled from the spec: derived bytes per second,
`sample_rate * block_alignment`. -/
def FormatInfoChunk.bytesPerSecond (c : FormatInfoChunk) : Nat :=
  c.sampleRate * c.blockAlignment

/-- The fields `parseFormatInfoChunk` reads from the stream before any
validation (bw64/parser.hpp:39-62): six fixed fields, then `cbSize` when
`size > 16`, then extra data when `size > 18 && cbSize > 0`. -/
structure FmtFields where
  formatTag : Nat
  channelCount : Nat
  sampleRate : Nat
  bytesPerSecond : Nat
  blockAlignment : Nat
  bitsPerSample : Nat
  cbSize : Nat
  extraData : Option ExtraData
deriving DecidableEq, Repr

/-- The reading phase of `parseFormatInfoChunk` (bw64/parser.hpp:39-62),
in source order. -/
def readFmtFields (size : Nat) (s : List Nat) : Except String FmtFields :=
  match readU16 s with
  | Except.error e => Except.error e
  | Except.ok (formatTag, s) =>
  match readU16 s with
  | Except.error e => Except.error e
  | Except.ok (channelCount, s) =>
  match readU32 s with
  | Except.error e => Except.error e
  | Except.ok (sampleRate, s) =>
  match readU32 s with
  | Except.error e => Except.error e
  | Except.ok (bytesPerSecond, s) =>
  match readU16 s with
  | Except.error e => Except.error e
  | Except.ok (blockAlignment, s) =>
  match readU16 s with
  | Except.error e => Except.error e
  | Except.ok (bitsPerSample, s) =>
  match (if 16 < size then readU16 s else Except.ok (0, s)) with
  | Except.error e => Except.error e
  | Except.ok (cbSize, s) =>
  match (if 18 < size ∧ 0 < cbSize then
           (match parseExtraData s with
            | Except.error e => Except.error e
            | Except.ok (e, s) => Except.ok (some e, s))
         else Except.ok ((none : Option ExtraData), s)) with
  | Except.error e => Except.error e
  | Except.ok (extraData, _) =>
    Except.ok ⟨formatTag, channelCount, sampleRate, bytesPerSecond,
               blockAlignment, bitsPerSample, cbSize, extraData⟩

/-- The validation chain of `parseFormatInfoChunk` on the read fields, in
source order (bw64/parser.hpp:64-102): `cbSize` must be 0 or 22, the format
tag must be 1 or 0xFFFE, tag 0xFFFE requires extensible extra data with
subformat 1, and the carried block alignment and bytes-per-second must match
the values derived from channels, bits and sample rate. -/
def parseFmtValidate (f : FmtFields) : Except String FormatInfoChunk :=
  if f.cbSize ≠ 0 ∧ f.cbSize ≠ 22 then Except.error "unsupported cbSize"
  else if f.formatTag ≠ 1 ∧ f.formatTag ≠ 0xfffe then
    Except.error "format unsupported"
  else
    match (if f.formatTag = 0xfffe then
             (match f.extraData with
              | none => Except.error "missing extra data for WAVE_FORMAT_EXTENSIBLE"
              | some e =>
                if e.subFormat ≠ 1 then Except.error "subformat unsupported"
                else Except.ok ())
           else Except.ok ()) with
    | Except.error e => Except.error e
    | Except.ok _ =>
      let c : FormatInfoChunk :=
        ⟨f.channelCount, f.sampleRate, f.bitsPerSample, f.extraData⟩
      if c.blockAlignment ≠ f.blockAlignment then
        Except.error "sanity check failed blockAlignment"
      else if c.bytesPerSecond ≠ f.bytesPerSecond then
        Except.error "sanity check failed bytesPerSecond"
      else Except.ok c

/-- `parseFormatInfoChunk` (bw64/parser.hpp:28-103): chunk id and legal size
checks, the reads (all of which precede every validation in the source),
then the validation chain. -/
def parseFormatInfoChunk (id size : Nat) (s : List Nat) :
    Except String FormatInfoChunk :=
  if id ≠ fmtChunkId then Except.error "chunkId != fmt"
  else if size ≠ 16 ∧ size ≠ 18 ∧ size ≠ 40 then
    Except.error "illegal fmt chunk size"
  else
    match readFmtFields size s with
    | Except.error e => Except.error e
    | Except.ok f => parseFmtValidate f

/-- The format tag a fmt chunk stream carries: its first little-endian
`uint16_t`, when the stream holds one. -/
def tagOf (s : List Nat) : Option Nat :=
  match readU16 s with
  | Except.ok (t, _) => some t
  | Except.error _ => none

/-- Sign-decode a little-endian pair of bytes as an `int16_t`
(`utils::decodePcmSamples`, 16-bit case). -/
def toInt16 (lo hi : Nat) : Int :=
  let v := (hi % 256) * 256 + lo % 256
  if v < 32768 then (v : Int) else (v : Int) - 65536

/-- 16-bit case of `utils::decodePcmSamples`: successive byte pairs become
`int16_t` sample values. -/
def decodePcm16 : List Nat → List Int
  | b0 :: b1 :: rest => toInt16 b0 b1 :: decodePcm16 rest
  | _ => []

/-- State of a `Bw64Reader` positioned inside its `data` chunk: channel
count, the raw bytes of the `data` chunk, and the current frame position
(`tell()`).  The repository's audio is 16-bit PCM, so the bit depth is fixed
at 16 and `blockAlignment = channels * 16 / 8` (bw64/reader.hpp). -/
structure Bw64Reader where
  channels : Nat
  dataBytes : List Nat
  posFrames : Nat
deriving DecidableEq, Repr

/-- `Bw64Reader::blockAlignment`: `channels * bitDepth / 8` with 16-bit depth. -/
def Bw64Reader.blockAlignment (r : Bw64Reader) : Nat :=
  r.channels * 16 / 8

/-- `Bw64Reader::numberOfFrames`: data chunk size over block alignment. -/
def Bw64Reader.numberOfFrames (r : Bw64Reader) : Nat :=
  r.dataBytes.length / r.blockAlignment

/-- `Bw64Reader::read` (bw64/reader.hpp:256-276): clamp the requested frame
count to the frames remaining in the data chunk, and when non-zero read and
decode that many frames, advancing the stream.  Returns (frame count, decoded
samples written to the output buffer, next reader state); a zero-frame read
leaves the buffer untouched (no samples written). -/
def Bw64Reader.read (r : Bw64Reader) (frames : Nat) :
    Nat × List Int × Bw64Reader :=
  let frames := if r.numberOfFrames < r.posFrames + frames
                then r.numberOfFrames - r.posFrames else frames
  if frames ≠ 0 then
    let raw := (r.dataBytes.drop (r.posFrames * r.blockAlignment)).take
                 (frames * r.blockAlignment)
    (frames, decodePcm16 raw, { r with posFrames := r.posFrames + frames })
  else (frames, [], r)

/-! ## Helper lemmas -/

theorem ratTrunc_intCast (n : Int) : ratTrunc ((n : Int) : ℚ) = n := by
  unfold ratTrunc
  split
  · rw [← Int.cast_neg, Int.floor_intCast, neg_neg]
  · rw [Int.floor_intCast]

theorem cppRound_zero : cppRound 0 = 0 := by
  norm_num [cppRound]

theorem cppRound_nonneg {q : ℚ} (h : 0 ≤ q) : 0 ≤ cppRound q := by
  unfold cppRound
  rw [if_neg (not_lt.mpr h)]
  exact Int.floor_nonneg.mpr (by linarith)

theorem cppRound_le_cppRound {x y : ℚ} (hx : 0 ≤ x) (hxy : x ≤ y) :
    cppRound x ≤ cppRound y := by
  unfold cppRound
  rw [if_neg (not_lt.mpr hx), if_neg (not_lt.mpr (hx.trans hxy))]
  exact Int.floor_le_floor (by linarith)

theorem roundEven_intCast (n : Int) : roundEven ((n : Int) : ℚ) = n := by
  norm_num [roundEven]

theorem int_log2_eq (q : ℚ) (e : Int) (hq : 0 < q)
    (h1 : (2:ℚ)^e ≤ q) (h2 : q < (2:ℚ)^(e+1)) : Int.log 2 q = e := by
  have hcast : ((2:ℕ):ℚ) = (2:ℚ) := by norm_num
  have hle : e ≤ Int.log 2 q := by
    rw [← Int.zpow_le_iff_le_log one_lt_two hq, hcast]
    exact h1
  have hlt : Int.log 2 q < e + 1 := by
    rw [← Int.lt_zpow_iff_log_lt one_lt_two hq, hcast]
    exact h2
  omega

theorem fl32_of_pos (q : ℚ) (e : Int) (hq : 0 < q)
    (h1 : (2:ℚ)^e ≤ q) (h2 : q < (2:ℚ)^(e+1)) :
    fl32 q = (roundEven (q / (2:ℚ)^(e-23)) : ℚ) * (2:ℚ)^(e-23) := by
  unfold fl32
  rw [if_neg (ne_of_gt hq)]
  show (if q < 0 then (-1:ℚ) else 1)
      * ((roundEven (|q| / (2:ℚ)^(Int.log 2 |q| - 23)) : ℚ)
          * (2:ℚ)^(Int.log 2 |q| - 23)) = _
  rw [if_neg (not_lt.mpr hq.le), abs_of_pos hq, int_log2_eq q e hq h1 h2, one_mul]

theorem fl32_neg (q : ℚ) : fl32 (-q) = -fl32 q := by
  rcases lt_trichotomy q 0 with hq | rfl | hq
  · have hnq : (0:ℚ) < -q := by linarith
    unfold fl32
    rw [if_neg (ne_of_gt hnq), if_neg (ne_of_lt hq)]
    show (if -q < 0 then (-1:ℚ) else 1)
        * ((roundEven (|-q| / (2:ℚ)^(Int.log 2 |-q| - 23)) : ℚ)
            * (2:ℚ)^(Int.log 2 |-q| - 23))
      = -((if q < 0 then (-1:ℚ) else 1)
        * ((roundEven (|q| / (2:ℚ)^(Int.log 2 |q| - 23)) : ℚ)
            * (2:ℚ)^(Int.log 2 |q| - 23)))
    rw [if_neg (not_lt.mpr hnq.le), if_pos hq, abs_neg]
    ring
  · simp [fl32]
  · have hnq : -q < 0 := by linarith
    unfold fl32
    rw [if_neg (ne_of_lt hnq), if_neg (ne_of_gt hq)]
    show (if -q < 0 then (-1:ℚ) else 1)
        * ((roundEven (|-q| / (2:ℚ)^(Int.log 2 |-q| - 23)) : ℚ)
            * (2:ℚ)^(Int.log 2 |-q| - 23))
      = -((if q < 0 then (-1:ℚ) else 1)
        * ((roundEven (|q| / (2:ℚ)^(Int.log 2 |q| - 23)) : ℚ)
            * (2:ℚ)^(Int.log 2 |q| - 23)))
    rw [if_pos hnq, if_neg (not_lt.mpr hq.le), abs_neg]
    ring

theorem fl32_16777216 : fl32 (16777216 : ℚ) = 16777216 := by
  rw [fl32_of_pos (16777216 : ℚ) 24 (by norm_num) (by norm_num) (by norm_num)]
  norm_num [roundEven]

theorem fl32_16777217 : fl32 (16777217 : ℚ) = 16777216 := by
  rw [fl32_of_pos (16777217 : ℚ) 24 (by norm_num) (by norm_num) (by norm_num)]
  norm_num [roundEven]

theorem fl32_50000000 : fl32 (50000000 : ℚ) = 50000000 := by
  rw [fl32_of_pos (50000000 : ℚ) 25 (by norm_num) (by norm_num) (by norm_num)]
  norm_num [roundEven]

theorem fl32_49999950 : fl32 (49999950 : ℚ) = 49999952 := by
  rw [fl32_of_pos (49999950 : ℚ) 25 (by norm_num) (by norm_num) (by norm_num)]
  norm_num [roundEven]

theorem fl32_1000 : fl32 (1000 : ℚ) = 1000 := by
  rw [fl32_of_pos (1000 : ℚ) 9 (by norm_num) (by norm_num) (by norm_num)]
  norm_num [roundEven]

theorem fl32_1050 : fl32 (1050 : ℚ) = 1050 := by
  rw [fl32_of_pos (1050 : ℚ) 10 (by norm_num) (by norm_num) (by norm_num)]
  norm_num [roundEven]

/-! ## Claim C10: zero drift takes the silence branch -/

/-- Counterexample to claim C10 as stated: even at zero drift the silence
branch runs `it->first += silenceDuration`, and the `int64 += float`
compound assignment round-trips every pre-existing timestamp through
binary32.  A timestamp of 16777217 ns (= 2^24 + 1, not representable in
binary32) is changed to 16777216, so "the samples and timestamps of all
pre-existing chunks unchanged" is false of the program. -/
theorem syncAudio_zero_drift_roundtrip_cex :
    syncAudio 16777217 [⟨16777217, [1]⟩] 48000 2
      = [⟨16777217, []⟩, ⟨16777216, [1]⟩]
    ∧ (16777216 : Int) ≠ 16777217 := by
  constructor
  · unfold syncAudio
    norm_num [cppRound_zero, ratTrunc, fl32_16777217, fl32_16777216]
  · decide

/-- Claim C10 (amended): when the first audio chunk's timestamp equals
`video_t0` exactly, `syncAudio` takes the silence-insertion branch and
prepends a chunk with timestamp `video_t0` and zero samples (the chunk
count grows by one even though no adjustment was needed); every
pre-existing chunk keeps its samples, but its timestamp is round-tripped
through binary32 (`trunc(fl32(fl32(ts)))`), so it is unchanged exactly for
binary32-representable timestamps and perturbed otherwise. -/
theorem syncAudio_zero_drift (v : Int) (a : AudioChunk) (rest : List AudioChunk)
    (sampleRate numChannels : Int) (h : a.first = v) :
    syncAudio v (a :: rest) sampleRate numChannels
      = { first := v, second := [] } ::
          (a :: rest).map (fun c =>
            { c with first := ratTrunc (fl32 (fl32 ((c.first : Int) : ℚ))) })
    ∧ (∀ c : AudioChunk, fl32 ((c.first : Int) : ℚ) = ((c.first : Int) : ℚ) →
        ({ c with first := ratTrunc (fl32 (fl32 ((c.first : Int) : ℚ))) } : AudioChunk)
          = c) := by
  constructor
  · subst h
    simp only [syncAudio]
    norm_num [cppRound_zero]
  · intro c hrep
    rw [hrep, hrep, ratTrunc_intCast]

/-- Witness for the amended C10 at a concrete input (the chunk at 1000 ns is
binary32-representable, so it comes through unchanged). -/
theorem syncAudio_zero_drift_witness :
    ((⟨5, [1, 2]⟩ : AudioChunk).first = 5)
    ∧ (syncAudio 5 [⟨5, [1, 2]⟩, ⟨1000, [3, 4]⟩] 48000 2
        = [⟨5, []⟩,
           ⟨ratTrunc (fl32 (fl32 (((5:Int) : Int) : ℚ))), [1, 2]⟩,
           ⟨ratTrunc (fl32 (fl32 (((1000:Int) : Int) : ℚ))), [3, 4]⟩])
    ∧ fl32 (((1000:Int) : Int) : ℚ) = (((1000:Int) : Int) : ℚ)
    ∧ ({ first := ratTrunc (fl32 (fl32 (((1000:Int) : Int) : ℚ))), second := [3, 4] }
        : AudioChunk) = ⟨1000, [3, 4]⟩ := by
  have hmain := syncAudio_zero_drift 5 ⟨5, [1, 2]⟩ [⟨1000, [3, 4]⟩] 48000 2 rfl
  have hrep : fl32 (((1000:Int) : Int) : ℚ) = (((1000:Int) : Int) : ℚ) := by
    norm_num [fl32_1000]
  exact ⟨rfl, hmain.1, hrep, hmain.2 ⟨1000, [3, 4]⟩ hrep⟩

/-! ## Claim C2: the sync postcondition -/

/-- Counterexample to claim C2: in the trim branch the first remaining
chunk's timestamp is not `video_t0`.  With `video_t0 = 0`, one chunk of 20
samples starting at 10 ms (10000000 ns), sample rate 1000, mono: the drift is
10 ms, 10 samples are trimmed and the surviving chunk keeps its original
timestamp advanced by `10 * 1000 / 1000 = 10`, giving 10000010, not 0. -/
theorem syncAudio_trim_head_timestamp_cex :
    syncAudio 0 [⟨10000000, List.replicate 20 0⟩] 1000 1
      = [⟨10000010, List.replicate 10 0⟩]
    ∧ (10000010 : Int) ≠ 0 := by
  constructor
  · unfold syncAudio
    norm_num [cppRound, trimAudioChunks]
    decide
  · decide

/-- Claim C2 (amended): the exit postcondition
`audio_chunks[0].timestamp = video_t0` holds exactly in the
silence-insertion branch (audio does not start after video): the prepended
chunk carries timestamp `video_t0`.  In the trim branch the first remaining
chunk keeps its own (advanced) timestamp instead. -/
theorem syncAudio_silence_branch_head (v : Int) (a : AudioChunk)
    (rest : List AudioChunk) (sampleRate numChannels : Int) (h : a.first ≤ v) :
    ∃ c cs, syncAudio v (a :: rest) sampleRate numChannels = c :: cs
      ∧ c.first = v := by
  simp only [syncAudio]
  have hdrift : ¬(0 < ((a.first - v : Int) : ℚ) * (1/1000000)) := by
    rw [not_lt]
    apply mul_nonpos_of_nonpos_of_nonneg
    · exact_mod_cast sub_nonpos.mpr h
    · norm_num
  rw [if_neg hdrift]
  exact ⟨_, _, rfl, rfl⟩

/-- Witness for the amended C2 at a concrete input. -/
theorem syncAudio_silence_branch_head_witness :
    ((⟨3, [1]⟩ : AudioChunk).first ≤ 5)
    ∧ ∃ c cs, syncAudio 5 [⟨3, [1]⟩] 48000 2 = c :: cs ∧ c.first = 5 :=
  ⟨by decide, syncAudio_silence_branch_head 5 ⟨3, [1]⟩ [] 48000 2 (by decide)⟩

/-! ## Claim C6: the silence-insertion branch -/

/-- Claim C6 (code bug, failing input): audio 50 ms earlier than video at
48000 Hz stereo.  The prepended silence chunk is correct (timestamp
`video_t0 = 0`, 2400*2 = 4800 zero samples), but every subsequent chunk's
timestamp is shifted by the raw millisecond drift 50 — in binary32
arithmetic — not by 50000000 ns: the chunk at 1000 ns moves to 1050
(float-exact), not to 50001000, and the first chunk lands on -49999952,
the binary32 rounding of -50000000 + 50 (a round-to-even tie). -/
theorem syncAudio_silence_shift_failing_input :
    syncAudio 0 [⟨-50000000, List.replicate 10 0⟩, ⟨1000, List.replicate 4 0⟩] 48000 2
      = [⟨0, List.replicate 4800 0⟩, ⟨-49999952, List.replicate 10 0⟩,
         ⟨1050, List.replicate 4 0⟩]
    ∧ (1050 : Int) ≠ 1000 + 50000000 := by
  constructor
  · unfold syncAudio
    norm_num [cppRound, ratTrunc, fl32_neg, fl32_50000000, fl32_49999950,
      fl32_1000, fl32_1050]
    decide
  · decide

/-! ## Claim C7: empty frame list -/

/-- Claim C7 (amended): an empty frame list makes `init` return before
touching any state: a freshly constructed VFS (empty directory, fps 0) stays
empty with fps 0, and more generally the prior state is returned unchanged —
so a previously populated directory is *not* emptied. -/
theorem initVfs_empty_frames (s : VfsState) (probeDngSize audioFileBytes : Nat)
    (isWin : Bool) :
    initVfs s [] probeDngSize audioFileBytes isWin = s
    ∧ (initVfs ⟨[], 0, 0⟩ [] probeDngSize audioFileBytes isWin).files = []
    ∧ (initVfs ⟨[], 0, 0⟩ [] probeDngSize audioFileBytes isWin).fps = 0 :=
  ⟨rfl, rfl, rfl⟩

/-- Counterexample to claim C7 as stated: re-initialising an already
populated VFS with an empty frame list leaves the old directory and fps in
place (the early return precedes `mFiles.clear()`), so the resulting
directory is not empty. -/
theorem initVfs_stale_directory_cex :
    initVfs ⟨[⟨EntryType.FILE_ENTRY, 3, "frame-000000.dng", some 0⟩], 30, 3⟩ [] 7 0 false
      = ⟨[⟨EntryType.FILE_ENTRY, 3, "frame-000000.dng", some 0⟩], 30, 3⟩
    ∧ ([⟨EntryType.FILE_ENTRY, 3, "frame-000000.dng", some 0⟩] : List Entry) ≠ []
    ∧ (30 : ℚ) ≠ 0 :=
  ⟨rfl, by decide, by norm_num⟩

/-! ## Claim C4: calculateFrameRate -/

theorem posDurationsAux_pos (l : List Int) :
    ∀ (prev : Int) (d : ℚ), d ∈ posDurationsAux l prev → 0 < d := by
  induction l with
  | nil =>
    intro prev d hd
    simp [posDurationsAux] at hd
  | cons t rest ih =>
    intro prev d hd
    simp only [posDurationsAux] at hd
    by_cases h : (0:ℚ) < ((t - prev : Int) : ℚ)
    · rw [if_pos h] at hd
      rcases List.mem_cons.mp hd with rfl | hmem
      · exact h
      · exact ih t d hmem
    · rw [if_neg h] at hd
      exact ih t d hd

theorem calcLoop_snd (rest : List Int) :
    ∀ (prev : Int) (avg : ℚ) (n : Nat),
      (calcLoop rest prev avg n).2 = n + (posDurationsAux rest prev).length := by
  induction rest with
  | nil =>
    intro prev avg n
    simp [calcLoop, posDurationsAux]
  | cons t rest ih =>
    intro prev avg n
    simp only [calcLoop, posDurationsAux]
    by_cases h : (0:ℚ) < ((t - prev : Int) : ℚ)
    · rw [if_pos h, if_pos h, ih]
      simp [List.length_cons]
      omega
    · rw [if_neg h, if_neg h, ih]

theorem calcLoop_fst (rest : List Int) :
    ∀ (prev : Int) (s : ℚ) (n : Nat), 0 < n →
      (calcLoop rest prev (s / (n : ℚ)) n).1
        = (s + (posDurationsAux rest prev).sum)
            / ((n : ℚ) + ((posDurationsAux rest prev).length : ℚ)) := by
  induction rest with
  | nil =>
    intro prev s n hn
    simp [calcLoop, posDurationsAux]
  | cons t rest ih =>
    intro prev s n hn
    simp only [calcLoop, posDurationsAux]
    by_cases h : (0:ℚ) < ((t - prev : Int) : ℚ)
    · rw [if_pos h, if_pos h]
      have hn0 : ((n : ℚ)) ≠ 0 := Nat.cast_ne_zero.mpr (by omega)
      have havg : s / (n : ℚ) + (((t - prev : Int) : ℚ) - s / (n : ℚ)) / ((n : ℚ) + 1)
          = (s + ((t - prev : Int) : ℚ)) / ((n + 1 : Nat) : ℚ) := by
        have hn1 : ((n : ℚ)) + 1 ≠ 0 := by positivity
        push_cast
        field_simp
        ring
      rw [havg, ih t (s + ((t - prev : Int) : ℚ)) (n + 1) (by omega)]
      rw [List.sum_cons, List.length_cons]
      push_cast
      ring_nf
    · rw [if_neg h, if_neg h]
      exact ih t s n hn

theorem calcLoop_start (rest : List Int) :
    ∀ (prev : Int),
      (calcLoop rest prev 0 0).1
        = if posDurationsAux rest prev = [] then 0
          else (posDurationsAux rest prev).sum
                 / ((posDurationsAux rest prev).length : ℚ) := by
  induction rest with
  | nil =>
    intro prev
    simp [calcLoop, posDurationsAux]
  | cons t rest ih =>
    intro prev
    simp only [calcLoop, posDurationsAux]
    by_cases h : (0:ℚ) < ((t - prev : Int) : ℚ)
    · rw [if_pos h, if_pos h]
      have havg : (0:ℚ) + (((t - prev : Int) : ℚ) - 0) / (((0:Nat) : ℚ) + 1)
          = ((t - prev : Int) : ℚ) / ((1 : Nat) : ℚ) := by
        push_cast
        ring
      rw [havg, calcLoop_fst rest t (((t - prev : Int) : ℚ)) 1 (by omega)]
      rw [if_neg (List.cons_ne_nil _ _), List.sum_cons, List.length_cons]
      push_cast
      ring_nf
    · rw [if_neg h, if_neg h]
      exact ih t

/-- Claim C4 (amended): `calculate_frame_rate` returns 0 for fewer than two
frames; over the strictly positive successive durations the running mean
`μ_k = μ_{k-1} + (d_k - μ_{k-1})/k` equals the arithmetic mean, so the result
is `1e9 / (sum / count)` whenever at least one positive duration exists and 0
when none does (the source returns a non-zero rate already for a *single*
positive duration, not only for two or more). -/
theorem calculateFrameRate_spec (frames : List Int) :
    calculateFrameRate frames
      = (if posDurations frames = [] then 0
         else 1000000000
                / ((posDurations frames).sum / ((posDurations frames).length : ℚ)))
    ∧ (frames.length < 2 → calculateFrameRate frames = 0)
    ∧ (posDurations frames ≠ [] → 0 < calculateFrameRate frames) := by
  have hmain : calculateFrameRate frames
      = (if posDurations frames = [] then 0
         else 1000000000
                / ((posDurations frames).sum / ((posDurations frames).length : ℚ))) := by
    rcases frames with _ | ⟨t0, _ | ⟨t1, rest⟩⟩
    · simp [calculateFrameRate, posDurations]
    · simp [calculateFrameRate, posDurations, posDurationsAux]
    · have hlen : ¬((t0 :: t1 :: rest).length < 2) := by
        simp [List.length_cons]
      simp only [calculateFrameRate, posDurations]
      rw [if_neg hlen, calcLoop_snd, calcLoop_start]
      by_cases hP : posDurationsAux (t1 :: rest) t0 = []
      · rw [if_pos hP, if_pos hP]
        simp [hP]
      · rw [if_neg hP, if_neg hP]
        have hlenP : 0 + (posDurationsAux (t1 :: rest) t0).length ≠ 0 := by
          have := List.length_pos.mpr hP
          omega
        rw [if_neg hlenP]
  refine ⟨hmain, ?_, ?_⟩
  · intro h
    unfold calculateFrameRate
    rw [if_pos h]
  · intro hne
    rw [hmain, if_neg hne]
    have hsum : 0 < (posDurations frames).sum := by
      apply List.sum_pos
      · intro d hd
        rcases frames with _ | ⟨t0, rest⟩
        · simp [posDurations] at hd
        · exact posDurationsAux_pos rest t0 d hd
      · exact hne
    have hlen : (0:ℚ) < ((posDurations frames).length : ℚ) := by
      have := List.length_pos.mpr hne
      exact_mod_cast this
    positivity

/-- Counterexample to claim C4 as stated: a single strictly positive
duration (fewer than two) already yields a non-zero frame rate:
`calculate_frame_rate([0, 1000]) = 1e9/1000 = 1e6 ≠ 0`. -/
theorem calculateFrameRate_single_pos_duration_cex :
    (posDurations [0, 1000]).length < 2 ∧ calculateFrameRate [0, 1000] ≠ 0 := by
  constructor
  · norm_num [posDurations, posDurationsAux]
  · norm_num [calculateFrameRate, calcLoop]

/-- Witness for the amended C4 at a concrete input. -/
theorem calculateFrameRate_spec_witness :
    posDurations [0, 1000] ≠ [] ∧ 0 < calculateFrameRate [0, 1000] := by
  have h : posDurations [0, 1000] ≠ [] := by
    norm_num [posDurations, posDurationsAux]
  exact ⟨h, (calculateFrameRate_spec [0, 1000]).2.2 h⟩

/-! ## Claim C3: asynchronous image-read error policy -/

/-- Counterexample to claim C3 as stated: a read at `pos = encoded.size()`
(here 4) is reported through the callback as `result(0, -1)`, not as the
successful zero-byte read `result(0, 0)` the claim prescribes (`errorCode`
starts at -1 and is only set to 0 inside the `pos < dngData->size()` copy
branch). -/
theorem generateFrame_past_end_cex :
    (generateFrame [7] 7 (Except.ok ([] : List Nat))
      (fun _ _ => Except.ok (some [9, 9, 9, 9])) 4 10).2 = (0, -1)
    ∧ ((0, -1) : Nat × Int) ≠ (0, 0) := by
  decide

/-- Claim C3 (amended): the dispatch returns 0 synchronously, every stage-1
fault (frame not found, decoder error) and stage-2 fault (encoder error,
null encode) ends in the callback being invoked as `result(0, -1)`, a read
below the encoded size copies `min(len, size - pos)` bytes with status 0,
and a read at or past the encoded size also ends in `result(0, -1)` (not in
a successful zero-byte read). -/
theorem generateFrame_error_policy (allFrames : List Int) (timestamp : Int)
    (loadFrame : Except String RawFrame)
    (generateDng : Nat → RawFrame → Except String (Option (List Nat)))
    (pos len : Nat) :
    (generateFrame allFrames timestamp loadFrame generateDng pos len).1 = 0
    ∧ (∀ e, stage1Decode allFrames timestamp loadFrame = Except.error e →
        (generateFrame allFrames timestamp loadFrame generateDng pos len).2 = (0, -1))
    ∧ (timestamp ∉ allFrames →
        (generateFrame allFrames timestamp loadFrame generateDng pos len).2 = (0, -1))
    ∧ (∀ frameIndex frameData,
        stage1Decode allFrames timestamp loadFrame = Except.ok (frameIndex, frameData) →
        (∀ e, generateDng frameIndex frameData = Except.error e →
          (generateFrame allFrames timestamp loadFrame generateDng pos len).2 = (0, -1))
        ∧ (generateDng frameIndex frameData = Except.ok none →
            (generateFrame allFrames timestamp loadFrame generateDng pos len).2 = (0, -1))
        ∧ (∀ dngData, generateDng frameIndex frameData = Except.ok (some dngData) →
            (pos < dngData.length →
              (generateFrame allFrames timestamp loadFrame generateDng pos len).2
                = (min len (dngData.length - pos), 0))
            ∧ (dngData.length ≤ pos →
              (generateFrame allFrames timestamp loadFrame generateDng pos len).2
                = (0, -1)))) := by
  refine ⟨rfl, ?_, ?_, ?_⟩
  · intro e he
    simp [generateFrame, he]
  · intro hmem
    have hfind : allFrames.findIdx? (fun t => t == timestamp) = none := by
      rw [List.findIdx?_eq_none_iff]
      intro x hx
      simp only [beq_eq_false_iff_ne, ne_eq]
      intro heq
      exact hmem (heq ▸ hx)
    simp [generateFrame, stage1Decode, hfind]
  · intro frameIndex frameData h1
    refine ⟨?_, ?_, ?_⟩
    · intro e he
      simp [generateFrame, h1, he]
    · intro he
      simp [generateFrame, h1, he]
    · intro dngData he
      constructor
      · intro hlt
        simp [generateFrame, h1, he, hlt]
      · intro hge
        simp [generateFrame, h1, he, Nat.not_lt.mpr hge]

/-- Witness for the amended C3 at a concrete input (frame not found in an
empty frame list). -/
theorem generateFrame_error_policy_witness :
    ((3 : Int) ∉ ([] : List Int))
    ∧ (generateFrame [] 3 (Except.ok ([] : List Nat))
        (fun _ _ => Except.ok none) 0 5).2 = (0, -1) :=
  ⟨by decide,
   (generateFrame_error_policy [] 3 (Except.ok ([] : List Nat))
      (fun _ _ => Except.ok none) 0 5).2.2.1 (by decide)⟩

/-! ## Claim C5: the trim branch -/

theorem trimAudioChunks_samples (sampleRate : Int) (chunks : List AudioChunk) :
    ∀ (remaining : Int), 0 ≤ remaining →
      remaining ≤ ((samplesConcat chunks).length : Int) →
      samplesConcat (trimAudioChunks sampleRate chunks remaining)
        = (samplesConcat chunks).drop remaining.toNat := by
  induction chunks with
  | nil =>
    intro r h0 hle
    simp [trimAudioChunks, samplesConcat]
  | cons c rest ih =>
    intro r h0 hle
    simp only [trimAudioChunks]
    by_cases hz : r ≤ 0
    · rw [if_pos hz]
      have hr : r.toNat = 0 := by omega
      simp [hr]
    · rw [if_neg hz]
      have hlentot : (samplesConcat (c :: rest)).length
          = c.second.length + (samplesConcat rest).length := by
        simp [samplesConcat]
      by_cases hlen : (c.second.length : Int) ≤ r
      · rw [if_pos hlen]
        have hle2 : r - c.second.length ≤ ((samplesConcat rest).length : Int) := by
          rw [hlentot] at hle
          push_cast at hle
          omega
        rw [ih (r - c.second.length) (by omega) hle2]
        simp only [samplesConcat]
        rw [List.drop_append_eq_append_drop,
          List.drop_eq_nil_of_le (by omega : c.second.length ≤ r.toNat),
          List.nil_append]
        congr 1
        omega
      · rw [if_neg hlen]
        simp only [samplesConcat]
        rw [List.drop_append_of_le_length (by omega : r.toNat ≤ c.second.length)]

/-- Claim C5: with the first audio chunk starting after the video, `syncAudio`
runs exactly the claimed chunk walk (erase whole chunks covered by the
remaining trim, then erase a prefix of the next chunk, advancing its
timestamp), and — provided the audio holds at least that many samples —
removes exactly `round(drift_ms * sample_rate / 1000) * channels` leading
samples from the concatenated sample stream. -/
theorem syncAudio_trim_spec (v : Int) (a : AudioChunk) (rest : List AudioChunk)
    (sampleRate numChannels : Int) (hd : v < a.first)
    (hsr : 0 ≤ sampleRate) (hch : 0 ≤ numChannels)
    (hN : samplesToRemoveSpec v a sampleRate numChannels
            ≤ ((samplesConcat (a :: rest)).length : Int)) :
    syncAudio v (a :: rest) sampleRate numChannels
      = trimAudioChunks sampleRate (a :: rest)
          (samplesToRemoveSpec v a sampleRate numChannels)
    ∧ samplesConcat (syncAudio v (a :: rest) sampleRate numChannels)
        = (samplesConcat (a :: rest)).drop
            (samplesToRemoveSpec v a sampleRate numChannels).toNat := by
  have hx : (0:ℚ) < ((a.first - v : Int) : ℚ) := by
    exact_mod_cast sub_pos.mpr hd
  have hdrift : (0:ℚ) < ((a.first - v : Int) : ℚ) * (1/1000000) := by
    apply mul_pos hx
    norm_num
  have heq : cppRound ((((a.first - v : Int) : ℚ) * (1/1000000)) * (sampleRate : ℚ) / 1000)
        * numChannels
      = samplesToRemoveSpec v a sampleRate numChannels := by
    unfold samplesToRemoveSpec
    rw [mul_one_div]
  have hbranch : syncAudio v (a :: rest) sampleRate numChannels
      = trimAudioChunks sampleRate (a :: rest)
          (samplesToRemoveSpec v a sampleRate numChannels) := by
    simp only [syncAudio]
    rw [if_pos hdrift, heq]
  have h0 : 0 ≤ samplesToRemoveSpec v a sampleRate numChannels := by
    unfold samplesToRemoveSpec
    apply mul_nonneg _ hch
    apply cppRound_nonneg
    apply div_nonneg _ (by norm_num)
    apply mul_nonneg (div_nonneg hx.le (by norm_num))
    exact_mod_cast hsr
  refine ⟨hbranch, ?_⟩
  rw [hbranch]
  exact trimAudioChunks_samples sampleRate (a :: rest)
    (samplesToRemoveSpec v a sampleRate numChannels) h0 hN

/-- Witness for C5 at the claim's own concrete figures: audio 100 ms later
than video, 48000 Hz stereo — exactly 4800*2 = 9600 samples are trimmed. -/
theorem syncAudio_trim_spec_witness :
    samplesToRemoveSpec 0 ⟨100000000, List.replicate 12000 0⟩ 48000 2 = 9600
    ∧ (0 : Int) < (⟨100000000, List.replicate 12000 0⟩ : AudioChunk).first
    ∧ samplesToRemoveSpec 0 ⟨100000000, List.replicate 12000 0⟩ 48000 2
        ≤ ((samplesConcat [⟨100000000, List.replicate 12000 0⟩]).length : Int)
    ∧ (syncAudio 0 [⟨100000000, List.replicate 12000 0⟩] 48000 2
         = trimAudioChunks 48000 [⟨100000000, List.replicate 12000 0⟩]
             (samplesToRemoveSpec 0 ⟨100000000, List.replicate 12000 0⟩ 48000 2)
       ∧ samplesConcat (syncAudio 0 [⟨100000000, List.replicate 12000 0⟩] 48000 2)
           = (samplesConcat [⟨100000000, List.replicate 12000 0⟩]).drop
               (samplesToRemoveSpec 0 ⟨100000000, List.replicate 12000 0⟩ 48000 2).toNat) := by
  have h96 : samplesToRemoveSpec 0 ⟨100000000, List.replicate 12000 0⟩ 48000 2 = 9600 := by
    norm_num [samplesToRemoveSpec, cppRound]
  have hle : samplesToRemoveSpec 0 ⟨100000000, List.replicate 12000 0⟩ 48000 2
      ≤ ((samplesConcat [⟨100000000, List.replicate 12000 0⟩]).length : Int) := by
    rw [h96]
    norm_num [samplesConcat]
  exact ⟨h96, by decide, hle,
    syncAudio_trim_spec 0 ⟨100000000, List.replicate 12000 0⟩ [] 48000 2
      (by decide) (by decide) (by decide) hle⟩


/-! ## Claim C9: Bw64Reader::read -/

theorem decodePcm16_length : ∀ (l : List Nat), (decodePcm16 l).length = l.length / 2
  | [] => by simp [decodePcm16]
  | [_] => by simp [decodePcm16]
  | _ :: _ :: rest => by
    simp only [decodePcm16, List.length_cons]
    rw [decodePcm16_length rest]
    omega

/-- Claim C9: `read(outBuffer, n)` returns exactly
`min(n, numberOfFrames() - tell())`, decodes exactly that many sample frames
(count * channels samples) into the output buffer, never reads past the end
of the data chunk, and at `tell() = numberOfFrames()` returns 0 leaving the
buffer untouched and the reader unchanged. -/
theorem bw64Reader_read_spec (r : Bw64Reader) (n : Nat)
    (hpos : r.posFrames ≤ r.numberOfFrames) :
    (r.read n).1 = min n (r.numberOfFrames - r.posFrames)
    ∧ (r.read n).2.1.length = (r.read n).1 * r.channels
    ∧ (r.read n).2.2.posFrames = r.posFrames + (r.read n).1
    ∧ (r.read n).2.2.channels = r.channels
    ∧ (r.read n).2.2.dataBytes = r.dataBytes
    ∧ (r.posFrames + (r.read n).1) * r.blockAlignment ≤ r.dataBytes.length
    ∧ (r.posFrames = r.numberOfFrames → r.read n = (0, [], r)) := by
  have hba : r.blockAlignment = 2 * r.channels := by
    unfold Bw64Reader.blockAlignment
    omega
  have hmlen : r.numberOfFrames * r.blockAlignment ≤ r.dataBytes.length := by
    unfold Bw64Reader.numberOfFrames
    exact Nat.div_mul_le_self _ _
  have hclamp : (if r.numberOfFrames < r.posFrames + n
        then r.numberOfFrames - r.posFrames else n)
      = min n (r.numberOfFrames - r.posFrames) := by
    by_cases hc : r.numberOfFrames < r.posFrames + n
    · rw [if_pos hc]
      omega
    · rw [if_neg hc]
      omega
  have hbound : (r.posFrames + min n (r.numberOfFrames - r.posFrames)) * r.blockAlignment
      ≤ r.dataBytes.length := by
    calc (r.posFrames + min n (r.numberOfFrames - r.posFrames)) * r.blockAlignment
        ≤ r.numberOfFrames * r.blockAlignment :=
          Nat.mul_le_mul_right _ (by omega)
      _ ≤ r.dataBytes.length := hmlen
  simp only [Bw64Reader.read, hclamp]
  by_cases hzero : min n (r.numberOfFrames - r.posFrames) = 0
  · rw [if_neg (by omega : ¬ min n (r.numberOfFrames - r.posFrames) ≠ 0)]
    refine ⟨rfl, by simp [hzero], by simp [hzero], rfl, rfl, hbound, fun _ => ?_⟩
    rw [hzero]
  · rw [if_pos hzero]
    refine ⟨rfl, ?_, rfl, rfl, rfl, hbound, ?_⟩
    · rw [decodePcm16_length]
      have hraw : ((r.dataBytes.drop (r.posFrames * r.blockAlignment)).take
            (min n (r.numberOfFrames - r.posFrames) * r.blockAlignment)).length
          = min n (r.numberOfFrames - r.posFrames) * r.blockAlignment := by
        rw [List.length_take, List.length_drop]
        have h1 := hbound
        rw [Nat.add_mul] at h1
        set A := r.posFrames * r.blockAlignment with hA
        set B := min n (r.numberOfFrames - r.posFrames) * r.blockAlignment with hB
        omega
      rw [hraw, hba]
      rw [show min n (r.numberOfFrames - r.posFrames) * (2 * r.channels)
            = 2 * (min n (r.numberOfFrames - r.posFrames) * r.channels) by ring]
      exact Nat.mul_div_cancel_left _ (by norm_num)
    · intro h
      exact absurd (by omega : min n (r.numberOfFrames - r.posFrames) = 0) hzero

/-- Witness for C9 at a concrete input: stereo, eight data bytes (two
frames), position 1, request 5 frames — one frame is read. -/
theorem bw64Reader_read_spec_witness :
    (⟨2, [1, 0, 2, 0, 3, 0, 4, 0], 1⟩ : Bw64Reader).posFrames
        ≤ (⟨2, [1, 0, 2, 0, 3, 0, 4, 0], 1⟩ : Bw64Reader).numberOfFrames
    ∧ ((⟨2, [1, 0, 2, 0, 3, 0, 4, 0], 1⟩ : Bw64Reader).read 5).1
        = min 5 ((⟨2, [1, 0, 2, 0, 3, 0, 4, 0], 1⟩ : Bw64Reader).numberOfFrames
                  - (⟨2, [1, 0, 2, 0, 3, 0, 4, 0], 1⟩ : Bw64Reader).posFrames) := by
  refine ⟨by decide, ?_⟩
  exact (bw64Reader_read_spec ⟨2, [1, 0, 2, 0, 3, 0, 4, 0], 1⟩ 5 (by decide)).1

/-! ## Claim C8: fmt chunk format-tag policy -/

theorem readFmtFields_tag (size : Nat) (s : List Nat) (f : FmtFields)
    (h : readFmtFields size s = Except.ok f) : tagOf s = some f.formatTag := by
  unfold readFmtFields at h
  unfold tagOf
  cases h1 : readU16 s with
  | error e =>
    rw [h1] at h
    exact absurd h (by simp)
  | ok p =>
    obtain ⟨t, s1⟩ := p
    simp only [h1] at h ⊢
    iterate 10 (all_goals try split at h)
    all_goals try simp_all
    all_goals (subst h; rfl)

theorem parseFmtValidate_ok (f : FmtFields) (c : FormatInfoChunk)
    (h : parseFmtValidate f = Except.ok c) :
    c = ⟨f.channelCount, f.sampleRate, f.bitsPerSample, f.extraData⟩
    ∧ (f.formatTag = 1
       ∨ (f.formatTag = 0xfffe ∧ ∃ e, f.extraData = some e ∧ e.subFormat = 1)) := by
  unfold parseFmtValidate at h
  by_cases hcb : f.cbSize ≠ 0 ∧ f.cbSize ≠ 22
  · rw [if_pos hcb] at h
    exact absurd h (by simp)
  rw [if_neg hcb] at h
  by_cases hbad : f.formatTag ≠ 1 ∧ f.formatTag ≠ 0xfffe
  · rw [if_pos hbad] at h
    exact absurd h (by simp)
  rw [if_neg hbad] at h
  push_neg at hbad
  by_cases hfe : f.formatTag = 0xfffe
  · rw [if_pos hfe] at h
    cases hed : f.extraData with
    | none =>
      rw [hed] at h
      exact absurd h (by simp)
    | some e =>
      rw [hed] at h
      have h3 : (match (if e.subFormat ≠ 1
              then (Except.error "subformat unsupported" : Except String Unit)
              else Except.ok ()) with
          | Except.error err => (Except.error err : Except String FormatInfoChunk)
          | Except.ok _ =>
            if (⟨f.channelCount, f.sampleRate, f.bitsPerSample, some e⟩
                  : FormatInfoChunk).blockAlignment ≠ f.blockAlignment
            then Except.error "sanity check failed blockAlignment"
            else if (⟨f.channelCount, f.sampleRate, f.bitsPerSample, some e⟩
                  : FormatInfoChunk).bytesPerSecond ≠ f.bytesPerSecond
            then Except.error "sanity check failed bytesPerSecond"
            else Except.ok ⟨f.channelCount, f.sampleRate, f.bitsPerSample, some e⟩)
          = Except.ok c := h
      by_cases hsub : e.subFormat ≠ 1
      · rw [if_pos hsub] at h3
        exact absurd h3 (by simp)
      · rw [if_neg hsub] at h3
        have h2 : (if (⟨f.channelCount, f.sampleRate, f.bitsPerSample, some e⟩
                : FormatInfoChunk).blockAlignment ≠ f.blockAlignment
              then (Except.error "sanity check failed blockAlignment"
                      : Except String FormatInfoChunk)
              else if (⟨f.channelCount, f.sampleRate, f.bitsPerSample, some e⟩
                : FormatInfoChunk).bytesPerSecond ≠ f.bytesPerSecond
              then Except.error "sanity check failed bytesPerSecond"
              else Except.ok ⟨f.channelCount, f.sampleRate, f.bitsPerSample, some e⟩)
            = Except.ok c := h3
        by_cases hs1 : (⟨f.channelCount, f.sampleRate, f.bitsPerSample, some e⟩
            : FormatInfoChunk).blockAlignment ≠ f.blockAlignment
        · rw [if_pos hs1] at h2
          exact absurd h2 (by simp)
        rw [if_neg hs1] at h2
        by_cases hs2 : (⟨f.channelCount, f.sampleRate, f.bitsPerSample, some e⟩
            : FormatInfoChunk).bytesPerSecond ≠ f.bytesPerSecond
        · rw [if_pos hs2] at h2
          exact absurd h2 (by simp)
        rw [if_neg hs2] at h2
        exact ⟨(Except.ok.inj h2).symm, Or.inr ⟨hfe, e, rfl, not_ne_iff.mp hsub⟩⟩
  · have h1 : f.formatTag = 1 := by
      by_contra hne
      exact hfe (hbad hne)
    rw [if_neg hfe] at h
    have h2 : (if (⟨f.channelCount, f.sampleRate, f.bitsPerSample, f.extraData⟩
            : FormatInfoChunk).blockAlignment ≠ f.blockAlignment
          then (Except.error "sanity check failed blockAlignment"
                  : Except String FormatInfoChunk)
          else if (⟨f.channelCount, f.sampleRate, f.bitsPerSample, f.extraData⟩
            : FormatInfoChunk).bytesPerSecond ≠ f.bytesPerSecond
          then Except.error "sanity check failed bytesPerSecond"
          else Except.ok ⟨f.channelCount, f.sampleRate, f.bitsPerSample, f.extraData⟩)
        = Except.ok c := h
    by_cases hs1 : (⟨f.channelCount, f.sampleRate, f.bitsPerSample, f.extraData⟩
        : FormatInfoChunk).blockAlignment ≠ f.blockAlignment
    · rw [if_pos hs1] at h2
      exact absurd h2 (by simp)
    rw [if_neg hs1] at h2
    by_cases hs2 : (⟨f.channelCount, f.sampleRate, f.bitsPerSample, f.extraData⟩
        : FormatInfoChunk).bytesPerSecond ≠ f.bytesPerSecond
    · rw [if_pos hs2] at h2
      exact absurd h2 (by simp)
    rw [if_neg hs2] at h2
    exact ⟨(Except.ok.inj h2).symm, Or.inl h1⟩

/-- Claim C8: the fmt-chunk parser accepts exactly plain PCM (tag 1) and
extensible PCM whose extra data carries subformat 1 (tag 0xFFFE): a
successful parse implies the stream's tag was one of these (with the
extensible extra data present and of subformat 1 in the returned chunk);
any other tag value yields an error, and so does tag 0xFFFE whenever the
read fields carry no extra data or a subformat other than 1. -/
theorem parseFormatInfoChunk_tag_policy (size : Nat) (s : List Nat) :
    (∀ c, parseFormatInfoChunk fmtChunkId size s = Except.ok c →
       tagOf s = some 1
       ∨ (tagOf s = some 0xfffe ∧ ∃ e, c.extraData = some e ∧ e.subFormat = 1))
    ∧ (∀ t, tagOf s = some t → t ≠ 1 → t ≠ 0xfffe →
        ∃ msg, parseFormatInfoChunk fmtChunkId size s = Except.error msg)
    ∧ (∀ f, readFmtFields size s = Except.ok f → f.formatTag = 0xfffe →
        (f.extraData = none →
          ∃ msg, parseFormatInfoChunk fmtChunkId size s = Except.error msg)
        ∧ (∀ e, f.extraData = some e → e.subFormat ≠ 1 →
          ∃ msg, parseFormatInfoChunk fmtChunkId size s = Except.error msg)) := by
  have hOk : ∀ c, parseFormatInfoChunk fmtChunkId size s = Except.ok c →
      ∃ f, readFmtFields size s = Except.ok f ∧ parseFmtValidate f = Except.ok c := by
    intro c hc
    unfold parseFormatInfoChunk at hc
    rw [if_neg (by simp : ¬(fmtChunkId ≠ fmtChunkId))] at hc
    by_cases hsz : size ≠ 16 ∧ size ≠ 18 ∧ size ≠ 40
    · rw [if_pos hsz] at hc
      exact absurd hc (by simp)
    · rw [if_neg hsz] at hc
      cases hrf : readFmtFields size s with
      | error e =>
        rw [hrf] at hc
        exact absurd hc (by simp)
      | ok f =>
        rw [hrf] at hc
        exact ⟨f, rfl, hc⟩
  refine ⟨?_, ?_, ?_⟩
  · intro c hc
    obtain ⟨f, hrf, hv⟩ := hOk c hc
    obtain ⟨hc_eq, hdisj⟩ := parseFmtValidate_ok f c hv
    have htag := readFmtFields_tag size s f hrf
    rcases hdisj with h1 | ⟨hfe, e, hed, hsub⟩
    · left
      rw [htag, h1]
    · right
      refine ⟨by rw [htag, hfe], e, ?_, hsub⟩
      rw [hc_eq]
      exact hed
  · intro t ht h1 h2
    cases hp : parseFormatInfoChunk fmtChunkId size s with
    | error m => exact ⟨m, rfl⟩
    | ok c =>
      obtain ⟨f, hrf, hv⟩ := hOk c hp
      obtain ⟨_, hdisj⟩ := parseFmtValidate_ok f c hv
      have htag := readFmtFields_tag size s f hrf
      rw [ht] at htag
      have hteq : t = f.formatTag := Option.some.inj htag
      rcases hdisj with hh | ⟨hh, _⟩
      · exact absurd (hteq.trans hh) h1
      · exact absurd (hteq.trans hh) h2
  · intro f hrf htagf
    constructor
    · intro hed
      cases hp : parseFormatInfoChunk fmtChunkId size s with
      | error m => exact ⟨m, rfl⟩
      | ok c =>
        obtain ⟨f2, hrf2, hv⟩ := hOk c hp
        rw [hrf] at hrf2
        obtain rfl : f = f2 := Except.ok.inj hrf2
        obtain ⟨_, hdisj⟩ := parseFmtValidate_ok f c hv
        rcases hdisj with hh | ⟨_, e, hed2, _⟩
        · rw [htagf] at hh
          exact absurd hh (by norm_num)
        · rw [hed] at hed2
          exact absurd hed2 (by simp)
    · intro e hed hsub
      cases hp : parseFormatInfoChunk fmtChunkId size s with
      | error m => exact ⟨m, rfl⟩
      | ok c =>
        obtain ⟨f2, hrf2, hv⟩ := hOk c hp
        rw [hrf] at hrf2
        obtain rfl : f = f2 := Except.ok.inj hrf2
        obtain ⟨_, hdisj⟩ := parseFmtValidate_ok f c hv
        rcases hdisj with hh | ⟨_, e2, hed2, hsub2⟩
        · rw [htagf] at hh
          exact absurd hh (by norm_num)
        · rw [hed] at hed2
          obtain rfl : e = e2 := Option.some.inj hed2
          exact absurd hsub2 hsub

/-- Witness for C8 at a concrete input: an unsupported tag (3) on an
otherwise well-formed 16-byte fmt chunk is rejected. -/
theorem parseFormatInfoChunk_tag_policy_witness :
    tagOf [3, 0, 2, 0, 128, 187, 0, 0, 0, 238, 2, 0, 4, 0, 16, 0] = some 3
    ∧ ∃ msg, parseFormatInfoChunk fmtChunkId 16
        [3, 0, 2, 0, 128, 187, 0, 0, 0, 238, 2, 0, 4, 0, 16, 0]
        = Except.error msg :=
  ⟨rfl, (parseFormatInfoChunk_tag_policy 16
      [3, 0, 2, 0, 128, 187, 0, 0, 0, 238, 2, 0, 4, 0, 16, 0]).2.1
    3 rfl (by decide) (by decide)⟩

/-! ## Claim C1: the gap-fill enumeration -/

theorem constructFrameFilename_dng (n : Int) :
    constructFrameFilename "frame-" n 6 "dng" = "frame-" ++ zeroPad 6 n ++ ".dng" := by
  rfl

theorem sorted_head_le (t0 : Int) (rest : List Int)
    (hs : List.Sorted (· ≤ ·) (t0 :: rest)) :
    ∀ t ∈ t0 :: rest, t0 ≤ t := by
  intro t ht
  rcases List.mem_cons.mp ht with rfl | hmem
  · exact le_refl t
  · exact (List.sorted_cons.mp hs).1 t hmem

theorem sorted_le_getLast :
    ∀ (l : List Int), List.Sorted (· ≤ ·) l →
      ∀ (tl : Int), l.getLast? = some tl → ∀ x ∈ l, x ≤ tl := by
  intro l
  induction l with
  | nil =>
    intro _ tl h
    simp at h
  | cons t rest ih =>
    intro hs tl hlast x hx
    cases rest with
    | nil =>
      simp at hlast hx
      omega
    | cons u rest2 =>
      have hlast2 : (u :: rest2).getLast? = some tl := by
        rw [← hlast]
        rfl
      have htail := ih (List.sorted_cons.mp hs).2 tl hlast2
      rcases List.mem_cons.mp hx with rfl | hmem
      · have hu : x ≤ u := (List.sorted_cons.mp hs).1 u (List.mem_cons_self u rest2)
        exact hu.trans (htail u (List.mem_cons_self u rest2))
      · exact htail x hmem

theorem getFrameNumber_mono (t0 x y : Int) (fps : ℚ) (hx : t0 ≤ x) (hxy : x ≤ y) :
    getFrameNumberFromTimestamp x t0 fps ≤ getFrameNumberFromTimestamp y t0 fps := by
  by_cases hf : fps ≤ 0
  · simp [getFrameNumberFromTimestamp, hf]
  · simp only [getFrameNumberFromTimestamp, if_neg hf]
    rw [if_neg (by omega : ¬(x - t0 < 0)), if_neg (by omega : ¬(y - t0 < 0))]
    have hnpf : (0:ℚ) < 1000000000 / fps := by
      apply div_pos (by norm_num)
      exact lt_of_not_le hf
    apply cppRound_le_cppRound
    · apply div_nonneg _ hnpf.le
      have : (0:Int) ≤ x - t0 := by omega
      exact_mod_cast this
    · apply (div_le_div_iff_of_pos_right hnpf).mpr
      have : (x - t0 : Int) ≤ (y - t0 : Int) := by omega
      exact_mod_cast this

theorem gapFillPairs_mem (t0 : Int) (fps : ℚ) :
    ∀ (l : List Int) (cursor : Int) (p : Int × Int),
      p ∈ gapFillPairs t0 fps l cursor →
      p.2 ∈ l ∧ p.1 < getFrameNumberFromTimestamp p.2 t0 fps := by
  intro l
  induction l with
  | nil =>
    intro cursor p hp
    simp [gapFillPairs] at hp
  | cons t rest ih =>
    intro cursor p hp
    simp only [gapFillPairs] at hp
    rcases List.mem_append.mp hp with hhead | htail
    · obtain ⟨a, ha, hpe⟩ := List.mem_map.mp hhead
      rw [List.mem_range] at ha
      have h2 : (a : Int) < getFrameNumberFromTimestamp t t0 fps - cursor :=
        Int.lt_toNat.mp ha
      rw [← hpe]
      refine ⟨List.mem_cons_self t rest, ?_⟩
      show cursor + (a : Int) < getFrameNumberFromTimestamp t t0 fps
      omega
    · obtain ⟨hmem, hlt⟩ := ih _ p htail
      exact ⟨List.mem_cons_of_mem t hmem, hlt⟩

theorem gapFill_eq_spec (t0 : Int) (fps : ℚ) (sz : Nat) (hf : 0 ≤ fps) :
    ∀ (l : List Int) (cursor : Int), 0 ≤ cursor → (∀ t ∈ l, t0 ≤ t) →
      (gapFillPairs t0 fps l cursor).map (mkFrameEntry sz)
        = specGapFill t0 fps sz l cursor := by
  intro l
  induction l with
  | nil =>
    intro cursor _ _
    simp [gapFillPairs, specGapFill]
  | cons t rest ih =>
    intro cursor hc hall
    have ht0 : t0 ≤ t := hall t (List.mem_cons_self t rest)
    rcases lt_or_eq_of_le hf with hfpos | hf0
    · have hpts : getFrameNumberFromTimestamp t t0 fps = specPts t0 fps t := by
        unfold getFrameNumberFromTimestamp specPts
        rw [if_neg (not_le.mpr hfpos), if_neg (by omega : ¬(t - t0 < 0))]
        show cppRound (((t - t0 : Int) : ℚ) / (1000000000 / fps))
          = cppRound (((t - t0 : Int) : ℚ) * fps / 1000000000)
        rw [div_div_eq_mul_div]
      simp only [gapFillPairs, specGapFill, hpts]
      rw [List.map_append, List.map_map,
        ih (max cursor (specPts t0 fps t)) (le_trans hc (le_max_left _ _))
          (fun x hx => hall x (List.mem_cons_of_mem t hx))]
      rfl
    · have hpc : getFrameNumberFromTimestamp t t0 fps = -1 := by
        unfold getFrameNumberFromTimestamp
        rw [if_pos hf0.symm.le]
      have hps : specPts t0 fps t = 0 := by
        unfold specPts
        rw [← hf0]
        simp [cppRound_zero]
      simp only [gapFillPairs, specGapFill, hpc, hps]
      rw [(by omega : ((-1 : Int) - cursor).toNat = 0),
        (by omega : ((0 : Int) - cursor).toNat = 0)]
      simp only [List.range_zero, List.map_nil, List.nil_append]
      rw [max_eq_left (by omega : (-1:Int) ≤ cursor),
        max_eq_left (by omega : (0:Int) ≤ cursor)]
      exact ih cursor hc (fun x hx => hall x (List.mem_cons_of_mem t hx))

/-- Claim C1: on a sorted frame list the synthesizer's image-entry loop is
exactly the claimed enumeration (cursor from 0, one `frame-{next_pts:06d}.dng`
entry of the typical size with `user_data` the current source frame for every
cursor value below the frame's pts); consequently no emitted cursor value
ever equals the final source frame's pts, and a single-frame capture (whose
computed fps is 0) yields zero image entries. -/
theorem init_image_enumeration (frames : List Int) (fps : ℚ) (typicalDngSize : Nat)
    (hs : List.Sorted (· ≤ ·) frames) (hf : 0 ≤ fps) :
    imageEntries frames fps typicalDngSize = specImageEntries frames fps typicalDngSize
    ∧ (∀ tl, frames.getLast? = some tl →
        ∀ p ∈ imagePairs frames fps,
          p.1 ≠ getFrameNumberFromTimestamp tl (frames.headD 0) fps)
    ∧ (frames.length = 1 →
        imageEntries frames (calculateFrameRate frames) typicalDngSize = []) := by
  refine ⟨?_, ?_, ?_⟩
  · cases frames with
    | nil => rfl
    | cons t0 rest =>
      simp only [imageEntries, imagePairs, specImageEntries]
      exact gapFill_eq_spec t0 fps typicalDngSize hf (t0 :: rest) 0 (le_refl 0)
        (sorted_head_le t0 rest hs)
  · intro tl hlast p hp
    cases frames with
    | nil => simp [imagePairs] at hp
    | cons t0 rest =>
      simp only [imagePairs] at hp
      obtain ⟨hmem, hlt⟩ := gapFillPairs_mem t0 fps (t0 :: rest) 0 p hp
      have hle : p.2 ≤ tl := sorted_le_getLast (t0 :: rest) hs tl hlast p.2 hmem
      have ht0 : t0 ≤ p.2 := sorted_head_le t0 rest hs p.2 hmem
      have hmono := getFrameNumber_mono t0 p.2 tl fps ht0 hle
      have hfin : p.1 < getFrameNumberFromTimestamp tl t0 fps := lt_of_lt_of_le hlt hmono
      simp only [List.headD_cons]
      omega
  · intro hlen
    cases frames with
    | nil => simp at hlen
    | cons t0 rest =>
      cases rest with
      | cons u l2 => simp at hlen
      | nil =>
        have hcf : calculateFrameRate [t0] = 0 := by
          unfold calculateFrameRate
          rw [if_pos (by simp)]
        rw [hcf]
        have hpts : getFrameNumberFromTimestamp t0 t0 0 = -1 := by
          unfold getFrameNumberFromTimestamp
          rw [if_pos (le_refl 0)]
        simp only [imageEntries, imagePairs, gapFillPairs, hpts]
        rw [(by decide : ((-1 : Int) - 0).toNat = 0)]
        simp [gapFillPairs]

/-- Witness for C1 at the uniform 30 fps three-frame scenario. -/
theorem init_image_enumeration_witness :
    List.Sorted (· ≤ ·) [(0:Int), 33333333, 66666666]
    ∧ (0:ℚ) ≤ 30
    ∧ (imageEntries [0, 33333333, 66666666] 30 5
         = specImageEntries [0, 33333333, 66666666] 30 5
       ∧ (∀ tl, ([0, 33333333, 66666666] : List Int).getLast? = some tl →
           ∀ p ∈ imagePairs [0, 33333333, 66666666] 30,
             p.1 ≠ getFrameNumberFromTimestamp tl
                     (([0, 33333333, 66666666] : List Int).headD 0) 30)
       ∧ (([0, 33333333, 66666666] : List Int).length = 1 →
           imageEntries [0, 33333333, 66666666]
             (calculateFrameRate [0, 33333333, 66666666]) 5 = [])) :=
  ⟨by decide, by norm_num,
   init_image_enumeration [0, 33333333, 66666666] 30 5 (by decide) (by norm_num)⟩
